import Mathlib

/-!
Verification of the regression/forecast engine of `src/Linear.py`
(gold-forecast-streamlit-linear).

The script's numeric pipeline is embedded over `ℚ` (the float arithmetic of
numpy/pandas is modelled as exact rational arithmetic; where the script's
floats produce NaN from a 0/0, the `ℚ` model yields `0` by the usual
division-by-zero convention — what matters for the error-handling claims is
that no exception is raised there, which both the script and the model agree
on).  Dates are embedded as integer day numbers.  The only places where the
script can raise are embedded as `Except` failure points:

* `.iloc[-1]` / `[-1]` indexing of an empty frame or array raises
  `IndexError` (lines 103-104, 136, 149);
* `pd.date_range` with a negative `periods` raises `ValueError` (line 139).

Division by zero on numpy floats does NOT raise (it yields inf/nan), and the
script contains no other validation, so those are the only failure points.
-/

namespace GoldForecast

/-- Python exception kinds the script can actually raise. -/
inductive PyErr
  | indexError
  | valueError
deriving DecidableEq

/-- Directional classification of line 152:
`"📈 Tren Naik" if change_pct > 0 else "📉 Tren Turun / Stabil"`. -/
inductive Direction
  | up
  | downOrFlat
deriving DecidableEq

/-- The summary block of lines 103/149-152. -/
structure SummaryStats where
  currentValue : ℚ
  forecastValue : ℚ
  percentChange : ℚ
  direction : Direction
deriving DecidableEq

/-- `.iloc[-1]` / `[-1]`: the last element, `IndexError` on an empty list. -/
def lastE : List α → Except PyErr α
  | [] => Except.error PyErr.indexError
  | [a] => Except.ok a
  | _ :: b :: t => lastE (b :: t)

/-- `Except.ok`-ness of a pipeline stage. -/
def isOk : Except PyErr α → Bool
  | Except.ok _ => true
  | Except.error _ => false

/-- Line 91: `df.dropna()` — drop the rows whose price is missing.
A raw point is a (day number, optional source price) pair. -/
def dropna (raw : List (Int × Option ℚ)) : List (Int × ℚ) :=
  raw.filterMap fun p => p.2.map fun v => (p.1, v)

/-- Line 98 constant: grams per troy ounce, `31.1035`. -/
def gramsPerOz : ℚ := 311035 / 10000

/-- Line 98: `df['price_idr'] = df['price_usd'] * kurs_idr / 31.1035`. -/
def price_idr (kurs v : ℚ) : ℚ := v * kurs / gramsPerOz

/-- `ds.min()`: the minimum of the date column (anchor of the time axis). -/
def dsMin (ds : List Int) : Int :=
  match ds with
  | [] => 0
  | d :: rest => rest.foldl min d

/-- Line 118: `df['t'] = (df['ds'] - df['ds'].min()).dt.days`. -/
def tcol (ds : List Int) : List Int := ds.map fun d => d - dsMin ds

/-- The `(x, y) = (t, price_idr)` pairs the regression of lines 120-127
runs on, derived from the (date, usd-price) frame. -/
def analysisPoints (kurs : ℚ) (df : List (Int × ℚ)) : List (ℚ × ℚ) :=
  df.map fun p => (((p.1 - dsMin (df.map Prod.fst) : Int) : ℚ), price_idr kurs p.2)

/-- Line 123: `x_mean = np.mean(x)`. -/
def x_mean (pts : List (ℚ × ℚ)) : ℚ := (pts.map Prod.fst).sum / pts.length

/-- Line 124: `y_mean = np.mean(y)`. -/
def y_mean (pts : List (ℚ × ℚ)) : ℚ := (pts.map Prod.snd).sum / pts.length

/-- Numerator of line 126: `np.sum((x - x_mean) * (y - y_mean))`. -/
def slopeNum (pts : List (ℚ × ℚ)) : ℚ :=
  (pts.map fun p => (p.1 - x_mean pts) * (p.2 - y_mean pts)).sum

/-- Denominator of line 126: `np.sum((x - x_mean) ** 2)`. -/
def slopeDen (pts : List (ℚ × ℚ)) : ℚ :=
  (pts.map fun p => (p.1 - x_mean pts) ^ 2).sum

/-- Line 126: `beta_1 = np.sum((x-x_mean)*(y-y_mean)) / np.sum((x-x_mean)**2)`. -/
def beta_1 (pts : List (ℚ × ℚ)) : ℚ := slopeNum pts / slopeDen pts

/-- Line 127: `beta_0 = y_mean - beta_1 * x_mean`. -/
def beta_0 (pts : List (ℚ × ℚ)) : ℚ := y_mean pts - beta_1 pts * x_mean pts

/-- Lines 129-130: `df['trend'] = beta_0 + beta_1 * x`;
`df['residual'] = y - df['trend']`. -/
def residualCol (pts : List (ℚ × ℚ)) : List ℚ :=
  pts.map fun p => p.2 - (beta_0 pts + beta_1 pts * p.1)

/-- Arithmetic mean of a list (as used by `pandas.Series.mean`). -/
def listMean (l : List ℚ) : ℚ := l.sum / l.length

/-- `pandas.Series.std()` uses `ddof = 1`; this is the square of that
sample standard deviation: `Σ (r - mean r)² / (n - 1)`. -/
def sampleVarQ (l : List ℚ) : ℚ :=
  (l.map fun r => (r - listMean l) ^ 2).sum / ((l.length : ℚ) - 1)

/-- Line 131: `noise_std = df['residual'].std()`, represented by its square
(the standard deviation itself is the real square root of this rational). -/
def noise_std_sq (pts : List (ℚ × ℚ)) : ℚ := sampleVarQ (residualCol pts)

/-- Sum of squared vertical residuals of the line `y = a + b·x` over the
points — the objective that ordinary least squares minimizes. -/
def SSE (pts : List (ℚ × ℚ)) (a b : ℚ) : ℚ :=
  (pts.map fun p => (p.2 - (a + b * p.1)) ^ 2).sum

/-- `np.arange(a, b)`: the integers `a, a+1, …, b-1`. -/
def arange (a b : Int) : List Int :=
  (List.range (b - a).toNat).map fun (i : Nat) => a + (i : Int)

/-- Line 136: `future_x = np.arange(x[-1] + 1, x[-1] + pred_days + 1)`. -/
def future_x (lastT pred : Int) : List Int := arange (lastT + 1) (lastT + pred + 1)

/-- Line 137: `future_y = beta_0 + beta_1 * future_x`. -/
def future_y (b0 b1 : ℚ) (fx : List Int) : List ℚ :=
  fx.map fun (t : Int) => b0 + b1 * (t : ℚ)

/-- Lines 139-142: `pd.date_range(start, periods)`; pandas raises
`ValueError` when `periods` is negative, else returns `periods` consecutive
days from `start`. -/
def date_range (start periods : Int) : Except PyErr (List Int) :=
  if periods < 0 then Except.error PyErr.valueError
  else Except.ok ((List.range periods.toNat).map fun (i : Nat) => start + (i : Int))

/-- Lines 144-147: `future_df = pd.DataFrame({"ds": future_dates, "trend":
future_y})`, assembled from the last historical date/time-index and the fit. -/
def future_df (lastDs lastT : Int) (b0 b1 : ℚ) (pred : Int) :
    Except PyErr (List (Int × ℚ)) :=
  match date_range (lastDs + 1) pred with
  | Except.error e => Except.error e
  | Except.ok dates => Except.ok (dates.zip (future_y b0 b1 (future_x lastT pred)))

/-- Line 150: `change_pct = (future_price - current_idr) / current_idr * 100`. -/
def change_pct (future_price current_idr : ℚ) : ℚ :=
  (future_price - current_idr) / current_idr * 100

/-- Line 152: `trend_status = "📈 Tren Naik" if change_pct > 0 else
"📉 Tren Turun / Stabil"`. -/
def trend_status (cp : ℚ) : Direction :=
  if 0 < cp then Direction.up else Direction.downOrFlat

/-- The summary stage (lines 103-104, 149-152): take the last historical
converted price and the last forecast value, then the percent change and
direction.  The only failure mode is `IndexError` on an empty column. -/
def summarizeE (prices fy : List ℚ) : Except PyErr SummaryStats := do
  let current_idr ← lastE prices
  let future_price ← lastE fy
  let cp := change_pct future_price current_idr
  pure ⟨current_idr, future_price, cp, trend_status cp⟩

/-- The whole script pipeline after data loading, in source order:
dropna (line 91), currency conversion (98), `current_idr` lookup (103-104),
time axis and OLS fit (118-127), `future_x` from `x[-1]` (136),
`pd.date_range` validation (139-142), `future_price = future_y[-1]` (149),
percent change and direction (150-152). -/
def runScript (kurs : ℚ) (raw : List (Int × Option ℚ)) (pred : Int) :
    Except PyErr SummaryStats := do
  let df := dropna raw
  let prices := df.map fun p => price_idr kurs p.2
  let current_idr ← lastE prices
  let pts := analysisPoints kurs df
  let b1 := beta_1 pts
  let b0 := beta_0 pts
  let lastT ← lastE (tcol (df.map Prod.fst))
  let lastDs ← lastE (df.map Prod.fst)
  let fx := future_x lastT pred
  let fy := future_y b0 b1 fx
  let _ ← date_range (lastDs + 1) pred
  let future_price ← lastE fy
  let cp := change_pct future_price current_idr
  pure ⟨current_idr, future_price, cp, trend_status cp⟩

/-- Lines 35-38: `pred_days = st.sidebar.slider("Periode Prediksi (hari)",
7, 180, 30)` — slider lower bound. -/
def pred_days_lo : Int := 7

/-- Lines 35-38: slider upper bound. -/
def pred_days_hi : Int := 180

/-- Lines 35-38: slider default value. -/
def pred_days_default : Int := 30

/-- The spec's gap-free property for the integer time axis: consecutive
entries are exactly one day apart. -/
def specGapFree (l : List Int) : Prop :=
  List.Chain' (fun a b => b = a + 1) l


instance [DecidableEq ε] [DecidableEq α] : DecidableEq (Except ε α) := fun a b =>
  match a, b with
  | Except.ok x, Except.ok y =>
      if h : x = y then isTrue (by rw [h]) else isFalse (by simp [h])
  | Except.error x, Except.error y =>
      if h : x = y then isTrue (by rw [h]) else isFalse (by simp [h])
  | Except.ok _, Except.error _ => isFalse (by simp)
  | Except.error _, Except.ok _ => isFalse (by simp)

/-- Reduction of a successful bind in the `Except` pipeline. -/
theorem ok_bind (a : α) (f : α → Except PyErr β) :
    (Except.ok a : Except PyErr α) >>= f = f a := rfl

/-- Reduction of a failed bind in the `Except` pipeline. -/
theorem error_bind (e : PyErr) (f : α → Except PyErr β) :
    (Except.error e : Except PyErr α) >>= f = Except.error e := rfl

/-- A nonempty list has a last element. -/
theorem lastE_ok_of_ne_nil : (l : List α) → l ≠ [] → ∃ a, lastE l = Except.ok a
  | [], h => absurd rfl h
  | [a], _ => ⟨a, rfl⟩
  | _ :: b :: t, _ => by
      obtain ⟨c, hc⟩ := lastE_ok_of_ne_nil (b :: t) (by simp)
      exact ⟨c, by simp [lastE, hc]⟩

/-!  ### Algebraic facts about the least-squares fit  -/

/-- Shifting a mapped list by a constant shifts its sum by `length * c`. -/
theorem sum_map_sub_const (l : List (ℚ × ℚ)) (f : ℚ × ℚ → ℚ) (m : ℚ) :
    (l.map fun p => f p - m).sum = (l.map f).sum - l.length * m := by
  induction l with
  | nil => simp
  | cons p t ih =>
      simp only [List.map_cons, List.sum_cons, List.length_cons]
      push_cast
      linear_combination ih

/-- The deviations of the x coordinates from their mean sum to zero. -/
theorem sum_dx_eq_zero (l : List (ℚ × ℚ)) :
    (l.map fun p => p.1 - x_mean l).sum = 0 := by
  cases l with
  | nil => simp
  | cons p t =>
      rw [sum_map_sub_const]
      have hn : ((p :: t).length : ℚ) ≠ 0 := by
        simp [Nat.cast_add]
        positivity
      unfold x_mean
      field_simp

/-- The deviations of the y coordinates from their mean sum to zero. -/
theorem sum_dy_eq_zero (l : List (ℚ × ℚ)) :
    (l.map fun p => p.2 - y_mean l).sum = 0 := by
  cases l with
  | nil => simp
  | cons p t =>
      rw [sum_map_sub_const]
      have hn : ((p :: t).length : ℚ) ≠ 0 := by
        simp [Nat.cast_add]
        positivity
      unfold y_mean
      field_simp

/-- Expansion of the sum of squared residuals of an arbitrary line `y = a + b·x`
around arbitrary centers `mx`, `my`. -/
theorem sse_expand (l : List (ℚ × ℚ)) (a b mx my : ℚ) :
    SSE l a b
      = (l.map fun p => (p.2 - my) ^ 2).sum
        - 2 * b * (l.map fun p => (p.1 - mx) * (p.2 - my)).sum
        + b ^ 2 * (l.map fun p => (p.1 - mx) ^ 2).sum
        + l.length * (a + b * mx - my) ^ 2
        - 2 * (a + b * mx - my) * (l.map fun p => p.2 - my).sum
        + 2 * b * (a + b * mx - my) * (l.map fun p => p.1 - mx).sum := by
  induction l with
  | nil => simp [SSE]
  | cons p t ih =>
      simp only [SSE, List.map_cons, List.sum_cons, List.length_cons] at ih ⊢
      push_cast
      linear_combination ih

/-- A sum of squares is nonnegative. -/
theorem sum_sq_nonneg (l : List (ℚ × ℚ)) (f : ℚ × ℚ → ℚ) :
    0 ≤ (l.map fun p => f p ^ 2).sum := by
  induction l with
  | nil => simp
  | cons p t ih =>
      simp only [List.map_cons, List.sum_cons]
      exact add_nonneg (sq_nonneg _) ih

/-- A sum of squares with one nonzero term is positive. -/
theorem sum_sq_pos_of_mem (l : List (ℚ × ℚ)) (f : ℚ × ℚ → ℚ) (p : ℚ × ℚ)
    (hp : p ∈ l) (hf : f p ≠ 0) :
    0 < (l.map fun q => f q ^ 2).sum := by
  induction l with
  | nil => simp at hp
  | cons q t ih =>
      simp only [List.map_cons, List.sum_cons]
      rcases List.mem_cons.mp hp with h | h
      · subst h
        exact add_pos_of_pos_of_nonneg
          (lt_of_le_of_ne (sq_nonneg _) (Ne.symm (pow_ne_zero 2 hf)))
          (sum_sq_nonneg t f)
      · exact add_pos_of_nonneg_of_pos (sq_nonneg _) (ih h)

/-- Two points with distinct x coordinates force a positive slope denominator. -/
theorem slopeDen_pos (pts : List (ℚ × ℚ)) (p q : ℚ × ℚ)
    (hp : p ∈ pts) (hq : q ∈ pts) (hne : p.1 ≠ q.1) :
    0 < slopeDen pts := by
  unfold slopeDen
  by_cases hx : p.1 - x_mean pts = 0
  · have hqx : q.1 - x_mean pts ≠ 0 := by
      intro h
      apply hne
      have h1 : p.1 = x_mean pts := by linarith [hx]
      have h2 : q.1 = x_mean pts := by linarith [h]
      rw [h1, h2]
    exact sum_sq_pos_of_mem pts (fun r => r.1 - x_mean pts) q hq hqx
  · exact sum_sq_pos_of_mem pts (fun r => r.1 - x_mean pts) p hp hx

/-- If all x coordinates share one value, the slope denominator is zero. -/
theorem slopeDen_eq_zero_of_const (pts : List (ℚ × ℚ)) (v : ℚ)
    (h : ∀ p ∈ pts, p.1 = v) :
    slopeDen pts = 0 := by
  cases pts with
  | nil => simp [slopeDen]
  | cons p t =>
      have hm : x_mean (p :: t) = v := by
        unfold x_mean
        have hsum : ((p :: t).map Prod.fst).sum = (p :: t).length * v := by
          have : (p :: t).map Prod.fst = (p :: t).map fun _ => v :=
            List.map_congr_left fun q hq => h q hq
          rw [this]
          induction (p :: t) with
          | nil => simp
          | cons r s ih => simp only [List.map_cons, List.sum_cons,
              List.length_cons, ih]; push_cast; ring
        rw [hsum]
        have hn : ((p :: t).length : ℚ) ≠ 0 := by
          simp [Nat.cast_add]
          positivity
        field_simp
      unfold slopeDen
      have : ((p :: t).map fun q => (q.1 - x_mean (p :: t)) ^ 2)
          = (p :: t).map fun _ => (0 : ℚ) := by
        apply List.map_congr_left
        intro q hq
        rw [hm, h q hq]
        ring
      rw [this]
      induction (p :: t) with
      | nil => simp
      | cons r s ih => simp [ih]

/-- The fitted line minimizes the sum of squared residuals (under a nonzero
slope denominator). -/
theorem SSE_min (pts : List (ℚ × ℚ)) (hD : 0 < slopeDen pts) (a b : ℚ) :
    SSE pts (beta_0 pts) (beta_1 pts) ≤ SSE pts a b := by
  have e1 := sse_expand pts a b (x_mean pts) (y_mean pts)
  have e2 := sse_expand pts (beta_0 pts) (beta_1 pts) (x_mean pts) (y_mean pts)
  rw [sum_dx_eq_zero, sum_dy_eq_zero] at e1 e2
  have hc0 : beta_0 pts + beta_1 pts * x_mean pts - y_mean pts = 0 := by
    unfold beta_0; ring
  rw [hc0] at e2
  have hnum : beta_1 pts * slopeDen pts = slopeNum pts := by
    unfold beta_1
    exact div_mul_cancel₀ _ hD.ne'
  have hden : (pts.map fun p => (p.1 - x_mean pts) ^ 2).sum = slopeDen pts := rfl
  have hnum' : (pts.map fun p =>
      (p.1 - x_mean pts) * (p.2 - y_mean pts)).sum = slopeNum pts := rfl
  rw [hden, hnum'] at e1 e2
  have h3 : 0 ≤ (b - beta_1 pts) ^ 2 * slopeDen pts :=
    mul_nonneg (sq_nonneg _) hD.le
  have h4 : 0 ≤ (pts.length : ℚ) * (a + b * x_mean pts - y_mean pts) ^ 2 :=
    mul_nonneg (Nat.cast_nonneg _) (sq_nonneg _)
  rw [e1, e2, ← hnum]
  nlinarith [h3, h4]

/-!  ### Shape of the forecast stage and of the whole pipeline  -/

/-- Zipping two maps over one list zips the images pointwise. -/
theorem zip_map_same (l : List α) (f : α → β) (g : α → γ) :
    (l.map f).zip (l.map g) = l.map fun a => (f a, g a) := by
  induction l with
  | nil => rfl
  | cons a t ih => simp [ih]

/-- `np.arange(a, b)` as a mapped `List.range`. -/
theorem arange_eq (a b : Int) :
    arange a b = (List.range (b - a).toNat).map fun (i : Nat) => a + (i : Int) := rfl

/-- `future_x` enumerates the `pred` time indices after `lastT`. -/
theorem future_x_eq (lastT pred : Int) :
    future_x lastT pred = (List.range pred.toNat).map fun (i : Nat) => lastT + 1 + (i : Int) := by
  unfold future_x arange
  have h : (lastT + pred + 1 - (lastT + 1)).toNat = pred.toNat := by omega
  rw [h]

/-- `future_x` has exactly `pred` entries (for a nonnegative horizon). -/
theorem future_x_length (lastT pred : Int) :
    (future_x lastT pred).length = pred.toNat := by
  rw [future_x_eq, List.length_map, List.length_range]

/-- A nonnegative horizon makes `pd.date_range` succeed with consecutive days. -/
theorem date_range_ok (start pred : Int) (h : 0 ≤ pred) :
    date_range start pred =
      Except.ok ((List.range pred.toNat).map fun (i : Nat) => start + (i : Int)) := by
  unfold date_range
  rw [if_neg (not_lt.mpr h)]

/-- Closed form of the forecast frame for a nonnegative horizon: the `k`-th
point (0-based) is dated `lastDs + 1 + k` and valued `β₀ + β₁·(lastT + 1 + k)`. -/
theorem future_df_ok (lastDs lastT : Int) (b0 b1 : ℚ) (pred : Int) (h : 0 ≤ pred) :
    future_df lastDs lastT b0 b1 pred =
      Except.ok ((List.range pred.toNat).map fun (k : Nat) =>
        (lastDs + 1 + (k : Int), b0 + b1 * ((lastT + 1 + (k : Int) : Int) : ℚ))) := by
  unfold future_df
  rw [date_range_ok _ _ h]
  simp only [future_y, future_x_eq, List.map_map, zip_map_same, Function.comp]

/-- A point survives `dropna` exactly when it sits in the raw series with a
present value. -/
theorem dropna_mem (raw : List (Int × Option ℚ)) (d : Int) (v : ℚ) :
    (d, v) ∈ dropna raw ↔ (d, some v) ∈ raw := by
  unfold dropna
  rw [List.mem_filterMap]
  constructor
  · rintro ⟨⟨d', ov⟩, hmem, heq⟩
    cases ov with
    | none => simp at heq
    | some w =>
        simp only [Option.map_some', Option.some.injEq, Prod.mk.injEq] at heq
        obtain ⟨h1, h2⟩ := heq
        rw [← h1, ← h2]
        exact hmem
  · intro h
    exact ⟨(d, some v), h, rfl⟩

/-- An empty valid series makes the script fail with `IndexError` at the
`current` price lookup (line 104). -/
theorem runScript_nil (kurs : ℚ) (raw : List (Int × Option ℚ)) (pred : Int)
    (h : dropna raw = []) :
    runScript kurs raw pred = Except.error PyErr.indexError := by
  simp [runScript, h, lastE, error_bind]

/-- With at least one valid point and a positive horizon the script returns a
summary built from the last price and last forecast value. -/
theorem runScript_ok (kurs : ℚ) (raw : List (Int × Option ℚ)) (pred : Int)
    (hne : dropna raw ≠ []) (hpred : 1 ≤ pred) :
    ∃ cur fp, runScript kurs raw pred =
      Except.ok ⟨cur, fp, change_pct fp cur, trend_status (change_pct fp cur)⟩ := by
  obtain ⟨cur, hcur⟩ := lastE_ok_of_ne_nil
    ((dropna raw).map fun p => price_idr kurs p.2) (by simpa using hne)
  obtain ⟨lt, hlt⟩ := lastE_ok_of_ne_nil
    (tcol ((dropna raw).map Prod.fst)) (by simp [tcol]; simpa using hne)
  obtain ⟨ld, hld⟩ := lastE_ok_of_ne_nil
    ((dropna raw).map Prod.fst) (by simpa using hne)
  have hfy : future_y (beta_0 (analysisPoints kurs (dropna raw)))
      (beta_1 (analysisPoints kurs (dropna raw))) (future_x lt pred) ≠ [] := by
    unfold future_y
    rw [← List.length_pos, List.length_map, future_x_length]
    omega
  obtain ⟨fp, hfp⟩ := lastE_ok_of_ne_nil _ hfy
  refine ⟨cur, fp, ?_⟩
  simp only [runScript]
  rw [hcur, ok_bind, hlt, ok_bind, hld, ok_bind,
    date_range_ok _ _ (by omega), ok_bind, hfp, ok_bind]
  rfl

/-- A negative horizon fails with `ValueError` from `pd.date_range`. -/
theorem runScript_neg (kurs : ℚ) (raw : List (Int × Option ℚ)) (pred : Int)
    (hne : dropna raw ≠ []) (hpred : pred < 0) :
    runScript kurs raw pred = Except.error PyErr.valueError := by
  obtain ⟨cur, hcur⟩ := lastE_ok_of_ne_nil
    ((dropna raw).map fun p => price_idr kurs p.2) (by simpa using hne)
  obtain ⟨lt, hlt⟩ := lastE_ok_of_ne_nil
    (tcol ((dropna raw).map Prod.fst)) (by simp [tcol]; simpa using hne)
  obtain ⟨ld, hld⟩ := lastE_ok_of_ne_nil
    ((dropna raw).map Prod.fst) (by simpa using hne)
  have hdr : date_range (ld + 1) pred = Except.error PyErr.valueError := by
    unfold date_range
    rw [if_pos hpred]
  simp only [runScript]
  rw [hcur, ok_bind, hlt, ok_bind, hld, ok_bind, hdr, error_bind]

/-- A zero horizon builds an empty forecast and then fails with `IndexError`
at `future_y[-1]` (line 149). -/
theorem runScript_zero (kurs : ℚ) (raw : List (Int × Option ℚ))
    (hne : dropna raw ≠ []) :
    runScript kurs raw 0 = Except.error PyErr.indexError := by
  obtain ⟨cur, hcur⟩ := lastE_ok_of_ne_nil
    ((dropna raw).map fun p => price_idr kurs p.2) (by simpa using hne)
  obtain ⟨lt, hlt⟩ := lastE_ok_of_ne_nil
    (tcol ((dropna raw).map Prod.fst)) (by simp [tcol]; simpa using hne)
  obtain ⟨ld, hld⟩ := lastE_ok_of_ne_nil
    ((dropna raw).map Prod.fst) (by simpa using hne)
  have hfx : future_x lt 0 = [] := by
    rw [future_x_eq]
    rfl
  simp only [runScript]
  rw [hcur, ok_bind, hlt, ok_bind, hld, ok_bind,
    date_range_ok _ _ le_rfl, ok_bind, hfx]
  simp [future_y, lastE, error_bind]

/-- Folding `min` over a list of copies of `c` starting at `c` gives `c`. -/
theorem foldl_min_all_eq (l : List Int) (c : Int) (h : ∀ d ∈ l, d = c) :
    l.foldl min c = c := by
  induction l with
  | nil => rfl
  | cons a t ih =>
      have ha : a = c := h a (List.mem_cons_self a t)
      simp only [List.foldl_cons, ha, min_self]
      exact ih fun d hd => h d (List.mem_cons_of_mem _ hd)

/-- The minimum of a nonempty constant date column is that constant. -/
theorem dsMin_const (ds : List Int) (c : Int) (hne : ds ≠ [])
    (h : ∀ d ∈ ds, d = c) : dsMin ds = c := by
  cases ds with
  | nil => exact absurd rfl hne
  | cons d rest =>
      have hd : d = c := h d (List.mem_cons_self d rest)
      have hm : dsMin (d :: rest) = rest.foldl min d := rfl
      rw [hm, hd]
      exact foldl_min_all_eq rest c fun e he => h e (List.mem_cons_of_mem _ he)

/-- Nonempty valid data and a positive horizon make the pipeline succeed. -/
theorem runScript_isOk (kurs : ℚ) (raw : List (Int × Option ℚ)) (pred : Int)
    (hne : dropna raw ≠ []) (hpred : 1 ≤ pred) :
    isOk (runScript kurs raw pred) = true := by
  obtain ⟨cur, fp, h⟩ := runScript_ok kurs raw pred hne hpred
  rw [h]
  rfl

/-!  ### Claims  -/

/-- C1: for every analysis series with at least two distinct time indices
(witnessed by two member points with different x), the fitter returns
`slope = Σ((x_i - xMean)(y_i - yMean)) / Σ((x_i - xMean)²)` and
`intercept = yMean - slope * xMean`, and that pair minimizes the sum of
squared residuals over all lines. -/
theorem ols_fit_formula_and_minimality (pts : List (ℚ × ℚ)) (p q : ℚ × ℚ)
    (hp : p ∈ pts) (hq : q ∈ pts) (hpq : p.1 ≠ q.1) :
    beta_1 pts = (pts.map fun r => (r.1 - x_mean pts) * (r.2 - y_mean pts)).sum
        / (pts.map fun r => (r.1 - x_mean pts) ^ 2).sum ∧
    beta_0 pts = y_mean pts - beta_1 pts * x_mean pts ∧
    ∀ a b : ℚ, SSE pts (beta_0 pts) (beta_1 pts) ≤ SSE pts a b :=
  ⟨rfl, rfl, fun a b => SSE_min pts (slopeDen_pos pts p q hp hq hpq) a b⟩

/-- C1 witness: on the two-point series `[(0,0), (1,1)]` the fitted line
beats the line `y = 3 + 7·x`. -/
theorem ols_fit_formula_and_minimality_witness :
    SSE [((0:ℚ), (0:ℚ)), (1, 1)]
        (beta_0 [((0:ℚ), (0:ℚ)), (1, 1)]) (beta_1 [((0:ℚ), (0:ℚ)), (1, 1)])
      ≤ SSE [((0:ℚ), (0:ℚ)), (1, 1)] 3 7 :=
  (ols_fit_formula_and_minimality [((0:ℚ), (0:ℚ)), (1, 1)] (0, 0) (1, 1)
    (by decide) (by decide) (by decide)).2.2 3 7

/-- C3 counterexample: a series whose two valid points share one date (all
time indices identical, slope denominator zero) does NOT make the script
fail — no `DegenerateSeriesError` exists; the run completes with a summary.
(The float slope is NaN there; the `ℚ` model renders the unchecked `0/0`
as `0`, and either way no exception is raised.) -/
theorem degenerate_series_no_error_cex :
    runScript gramsPerOz [((0:Int), some (10:ℚ)), (0, some 10)] 1 =
      Except.ok ⟨10, 10, 0, Direction.downOrFlat⟩ := by
  have h1 : dropna [((0:Int), some (10:ℚ)), (0, some 10)] = [(0, 10), (0, 10)] := by
    decide
  simp only [runScript, h1]
  norm_num [price_idr, gramsPerOz, lastE, tcol, dsMin, analysisPoints,
    beta_0, beta_1, slopeNum, slopeDen, x_mean, y_mean, future_x, arange,
    future_y, date_range, change_pct, trend_status, ok_bind, error_bind,
    List.range_succ]

/-- C3 (amended): when all time indices of the valid series are identical the
slope denominator `Σ(x_i - xMean)²` is indeed zero, but the script raises no
`DegenerateSeriesError` — it performs the division regardless and still
returns a summary (the error type does not exist in the code). -/
theorem degenerate_series_behavior (kurs : ℚ) (raw : List (Int × Option ℚ))
    (pred : Int) (c : Int) (hne : dropna raw ≠ [])
    (hall : ∀ p ∈ dropna raw, p.1 = c) (hpred : 1 ≤ pred) :
    slopeDen (analysisPoints kurs (dropna raw)) = 0 ∧
    isOk (runScript kurs raw pred) = true := by
  constructor
  · apply slopeDen_eq_zero_of_const _ 0
    intro q hq
    obtain ⟨p, hp, rfl⟩ := List.mem_map.mp hq
    have hds : dsMin ((dropna raw).map Prod.fst) = c := by
      apply dsMin_const _ c (by simpa using hne)
      intro d hd
      obtain ⟨r, hr, rfl⟩ := List.mem_map.mp hd
      exact hall r hr
    simp [hds, hall p hp]
  · exact runScript_isOk kurs raw pred hne hpred

/-- C3 witness: a concrete two-point single-date series. -/
theorem degenerate_series_behavior_witness :
    slopeDen (analysisPoints 1 (dropna [((0:Int), some (1:ℚ)), (0, some 2)])) = 0 ∧
    isOk (runScript 1 [((0:Int), some (1:ℚ)), (0, some 2)] 1) = true :=
  degenerate_series_behavior 1 [((0:Int), some (1:ℚ)), (0, some 2)] 1 0
    (by decide) (by decide) (by decide)

/-- C4: for every fitted series with `n ≥ 2` points, each residual is
`value_i - (intercept + slope·x_i)` and the noise statistic is the sample
standard deviation of the residuals — sum of squared deviations from the
residual mean divided by `n - 1`, then square-rooted.  (The square root is
irrational-valued, so `noise_std` is represented by its square
`noise_std_sq`; equality of the squares is equality of the standard
deviations.) -/
theorem residual_and_noise_std (pts : List (ℚ × ℚ)) (_h : 2 ≤ pts.length) :
    residualCol pts = (pts.map fun p => p.2 - (beta_0 pts + beta_1 pts * p.1)) ∧
    noise_std_sq pts =
      ((residualCol pts).map fun r => (r - listMean (residualCol pts)) ^ 2).sum
        / ((pts.length : ℚ) - 1) := by
  refine ⟨rfl, ?_⟩
  unfold noise_std_sq sampleVarQ
  have hlen : (residualCol pts).length = pts.length := List.length_map _ _
  rw [hlen]

/-- C4 witness: the two-point series `[(0,0), (1,1)]`. -/
theorem residual_and_noise_std_witness :
    residualCol [((0:ℚ), (0:ℚ)), (1, 1)]
      = ([((0:ℚ), (0:ℚ)), (1, 1)].map fun p =>
          p.2 - (beta_0 [((0:ℚ), (0:ℚ)), (1, 1)]
            + beta_1 [((0:ℚ), (0:ℚ)), (1, 1)] * p.1)) ∧
    noise_std_sq [((0:ℚ), (0:ℚ)), (1, 1)] =
      ((residualCol [((0:ℚ), (0:ℚ)), (1, 1)]).map fun r =>
          (r - listMean (residualCol [((0:ℚ), (0:ℚ)), (1, 1)])) ^ 2).sum
        / (([((0:ℚ), (0:ℚ)), (1, 1)].length : ℚ) - 1) :=
  residual_and_noise_std [((0:ℚ), (0:ℚ)), (1, 1)] (by decide)

/-- C5: for every last historical date/time-index, fit coefficients and
horizon `pred ≥ 1`, the forecast frame is exactly the `pred` consecutive
calendar days after the last date, the `k`-th (0-based) trend value being
`β₀ + β₁·(lastT + 1 + k)`; with horizon 1 it is the single point one day
after the last date. -/
theorem forecast_shape (lastDs lastT : Int) (b0 b1 : ℚ) (pred : Int)
    (h : 1 ≤ pred) :
    future_df lastDs lastT b0 b1 pred =
      Except.ok ((List.range pred.toNat).map fun (k : Nat) =>
        (lastDs + 1 + (k : Int), b0 + b1 * ((lastT + 1 + (k : Int) : Int) : ℚ))) ∧
    ((List.range pred.toNat).map fun (k : Nat) =>
        (lastDs + 1 + (k : Int), b0 + b1 * ((lastT + 1 + (k : Int) : Int) : ℚ))).length
      = pred.toNat ∧
    (pred = 1 → future_df lastDs lastT b0 b1 pred =
        Except.ok [(lastDs + 1, b0 + b1 * ((lastT + 1 : Int) : ℚ))]) := by
  refine ⟨future_df_ok _ _ _ _ _ (by omega), by simp, ?_⟩
  intro h1
  subst h1
  rw [future_df_ok _ _ _ _ _ (by omega)]
  norm_num [List.range_succ]

/-- C5 witness: two days of forecast from date 10, time index 4, line
`y = 2 + 3·x`. -/
theorem forecast_shape_witness :
    future_df 10 4 2 3 2 =
      Except.ok ((List.range (2:Int).toNat).map fun (k : Nat) =>
        ((10:Int) + 1 + (k : Int),
          (2:ℚ) + 3 * (((4:Int) + 1 + (k : Int) : Int) : ℚ))) ∧
    ((List.range (2:Int).toNat).map fun (k : Nat) =>
        ((10:Int) + 1 + (k : Int),
          (2:ℚ) + 3 * (((4:Int) + 1 + (k : Int) : Int) : ℚ))).length
      = (2:Int).toNat ∧
    ((2:Int) = 1 → future_df 10 4 2 3 2 =
        Except.ok [((10:Int) + 1, (2:ℚ) + 3 * (((4:Int) + 1 : Int) : ℚ))]) :=
  forecast_shape 10 4 2 3 2 (by decide)

/-- The classifier says `Up` exactly on positive input. -/
theorem trend_status_up_iff (cp : ℚ) : trend_status cp = Direction.up ↔ 0 < cp := by
  unfold trend_status
  by_cases h : 0 < cp
  · simp [h]
  · simp [h]

/-- The classifier sends zero to `DownOrFlat`. -/
theorem trend_status_zero (cp : ℚ) : cp = 0 → trend_status cp = Direction.downOrFlat := by
  intro h
  simp [trend_status, h]

/-- C8: a successful summary classifies `Up` exactly when the percent change
is positive; zero percent change yields `DownOrFlat`. -/
theorem direction_threshold (prices fy : List ℚ) (s : SummaryStats)
    (h : summarizeE prices fy = Except.ok s) :
    (s.direction = Direction.up ↔ 0 < s.percentChange) ∧
    (s.percentChange = 0 → s.direction = Direction.downOrFlat) := by
  unfold summarizeE at h
  cases hc : lastE prices with
  | error e => rw [hc, error_bind] at h; exact absurd h (by simp)
  | ok cur =>
      rw [hc, ok_bind] at h
      cases hf : lastE fy with
      | error e => rw [hf, error_bind] at h; exact absurd h (by simp)
      | ok fp =>
          rw [hf, ok_bind] at h
          have hs : s = ⟨cur, fp, change_pct fp cur,
              trend_status (change_pct fp cur)⟩ := by
            have hh := h
            simp only [pure, Except.pure, Except.ok.injEq] at hh
            exact hh.symm
          subst hs
          exact ⟨trend_status_up_iff _, trend_status_zero _⟩

/-- C8 witness: prices `[100]`, forecast `[110]`, percent change `10`. -/
theorem direction_threshold_witness :
    ((⟨100, 110, 10, Direction.up⟩ : SummaryStats).direction = Direction.up ↔
      0 < (⟨100, 110, 10, Direction.up⟩ : SummaryStats).percentChange) ∧
    ((⟨100, 110, 10, Direction.up⟩ : SummaryStats).percentChange = 0 →
      (⟨100, 110, 10, Direction.up⟩ : SummaryStats).direction
        = Direction.downOrFlat) :=
  direction_threshold [100] [110] _
    (by norm_num [summarizeE, lastE, change_pct, trend_status, ok_bind])


/-- Folding `min` from a lower bound of the list returns that bound. -/
theorem foldl_min_of_le (l : List Int) (d : Int) (h : ∀ e ∈ l, d ≤ e) :
    l.foldl min d = d := by
  induction l with
  | nil => rfl
  | cons a t ih =>
      simp only [List.foldl_cons, min_eq_left (h a (List.mem_cons_self a t))]
      exact ih fun e he => h e (List.mem_cons_of_mem _ he)

/-- On a sorted date column the anchor `ds.min()` is the first date. -/
theorem dsMin_sorted (ds : List Int) (hs : List.Chain' (· ≤ ·) ds) :
    ∀ d rest, ds = d :: rest → dsMin ds = d := by
  intro d rest hd
  subst hd
  have hall : ∀ e ∈ rest, d ≤ e := by
    have hp := List.chain'_iff_pairwise.mp hs
    exact fun e he => (List.pairwise_cons.mp hp).1 e he
  have hm : dsMin (d :: rest) = rest.foldl min d := rfl
  rw [hm]
  exact foldl_min_of_le rest d hall

/-- A sorted date column yields a monotone time axis. -/
theorem tcol_sorted_chain (ds : List Int) (hs : List.Chain' (· ≤ ·) ds) :
    List.Chain' (· ≤ ·) (tcol ds) := by
  unfold tcol
  rw [List.chain'_map]
  exact hs.imp fun a b hab => by omega

/-- A sorted nonempty date column yields a time axis starting at 0. -/
theorem tcol_sorted_head (ds : List Int) (hs : List.Chain' (· ≤ ·) ds)
    (hne : ds ≠ []) : (tcol ds).head? = some 0 := by
  cases ds with
  | nil => exact absurd rfl hne
  | cons d rest =>
      have hmin : dsMin (d :: rest) = d := dsMin_sorted (d :: rest) hs d rest rfl
      simp [tcol, hmin]

/-- C2 counterexample: a raw series with one missing-value point and exactly
ONE valid point does not fail with any `InsufficientDataError` (no such
error exists): the script completes and returns a summary.  (The float fit
is NaN-valued there; the `ℚ` model renders the unchecked `0/0` slope as `0`;
either way no exception is raised.) -/
theorem one_valid_point_no_error_cex :
    runScript gramsPerOz [((0:Int), none), (0, some (100:ℚ))] 1 =
      Except.ok ⟨100, 100, 0, Direction.downOrFlat⟩ := by
  have h1 : dropna [((0:Int), none), (0, some (100:ℚ))] = [(0, 100)] := by decide
  simp only [runScript, h1]
  norm_num [price_idr, gramsPerOz, lastE, tcol, dsMin, analysisPoints,
    beta_0, beta_1, slopeNum, slopeDen, x_mean, y_mean, future_x, arange,
    future_y, date_range, change_pct, trend_status, ok_bind, error_bind,
    List.range_succ]

/-- C2 (amended): `dropna` drops exactly the missing-value points, but the
script has no `InsufficientDataError`: with zero valid points it fails with
`IndexError` at the current-price lookup, and with ANY nonempty valid series
— in particular exactly 1 or exactly 2 valid points — and a positive horizon
it completes normally. -/
theorem normalize_min_points_behavior (kurs : ℚ) (raw : List (Int × Option ℚ))
    (pred : Int) (hpred : 1 ≤ pred) :
    (∀ d v, ((d, v) ∈ dropna raw ↔ (d, some v) ∈ raw)) ∧
    (dropna raw = [] → runScript kurs raw pred = Except.error PyErr.indexError) ∧
    (dropna raw ≠ [] → isOk (runScript kurs raw pred) = true) :=
  ⟨fun d v => dropna_mem raw d v,
    fun h => runScript_nil kurs raw pred h,
    fun h => runScript_isOk kurs raw pred h hpred⟩

/-- C2 witness: a two-valid-point raw series with horizon 1. -/
theorem normalize_min_points_behavior_witness :
    (((0:Int), (1:ℚ)) ∈ dropna [((0:Int), some (1:ℚ)), (1, some 2)] ↔
      ((0:Int), some (1:ℚ)) ∈ [((0:Int), some (1:ℚ)), (1, some 2)]) ∧
    isOk (runScript 1 [((0:Int), some (1:ℚ)), (1, some 2)] 1) = true :=
  ⟨(normalize_min_points_behavior 1 [((0:Int), some (1:ℚ)), (1, some 2)] 1
      (by decide)).1 0 1,
    (normalize_min_points_behavior 1 [((0:Int), some (1:ℚ)), (1, some 2)] 1
      (by decide)).2.2 (by decide)⟩

/-- C6 counterexample: at horizon 0 the forecast frame is produced (it is
the empty series, with no error at the forecaster), and the script's actual
failure is an `IndexError` at `future_y[-1]` — not any `InvalidHorizonError`
(no such error exists in the code). -/
theorem horizon_zero_no_typed_error_cex :
    future_df 9 4 100 2 0 = Except.ok [] ∧
    runScript gramsPerOz [((0:Int), some (10:ℚ)), (1, some 20)] 0 =
      Except.error PyErr.indexError := by
  constructor
  · rw [future_df_ok 9 4 100 2 0 le_rfl]
    rfl
  · exact runScript_zero gramsPerOz _ (by decide)

/-- C6 (amended): there is no `InvalidHorizonError` for a non-positive
horizon. A negative horizon fails with `ValueError` inside `pd.date_range`;
a zero horizon produces an EMPTY forecast frame and the script then fails
with `IndexError` reading its last value. -/
theorem nonpositive_horizon_behavior (kurs : ℚ) (raw : List (Int × Option ℚ))
    (pred : Int) (lastDs lastT : Int) (b0 b1 : ℚ)
    (hne : dropna raw ≠ []) (hpred : pred < 1) :
    (pred < 0 →
      future_df lastDs lastT b0 b1 pred = Except.error PyErr.valueError ∧
      runScript kurs raw pred = Except.error PyErr.valueError) ∧
    (pred = 0 →
      future_df lastDs lastT b0 b1 pred = Except.ok [] ∧
      runScript kurs raw pred = Except.error PyErr.indexError) := by
  constructor
  · intro hneg
    have hdr : date_range (lastDs + 1) pred = Except.error PyErr.valueError := by
      unfold date_range
      rw [if_pos hneg]
    constructor
    · unfold future_df
      rw [hdr]
    · exact runScript_neg kurs raw pred hne hneg
  · intro h0
    subst h0
    refine ⟨?_, runScript_zero kurs raw hne⟩
    rw [future_df_ok _ _ _ _ _ le_rfl]
    rfl

/-- C6 witness: horizon 0 with one valid data point. -/
theorem nonpositive_horizon_behavior_witness :
    ((0:Int) < 0 →
      future_df 9 4 100 2 0 = Except.error PyErr.valueError ∧
      runScript 1 [((0:Int), some (1:ℚ))] 0 = Except.error PyErr.valueError) ∧
    ((0:Int) = 0 →
      future_df 9 4 100 2 0 = Except.ok [] ∧
      runScript 1 [((0:Int), some (1:ℚ))] 0 = Except.error PyErr.indexError) :=
  nonpositive_horizon_behavior 1 [((0:Int), some (1:ℚ))] 0 9 4 100 2
    (by decide) (by decide)

/-- C7 counterexample: with current value 0 the summary stage does NOT fail
with any `DivisionByZeroError` (no such error exists; numpy float division
by zero raises nothing) — it returns a summary.  In the `ℚ` model the
unchecked quotient is rendered as 0. -/
theorem zero_current_value_no_error_cex :
    summarizeE [(0:ℚ)] [(5:ℚ)] = Except.ok ⟨0, 5, 0, Direction.downOrFlat⟩ := by
  norm_num [summarizeE, lastE, change_pct, trend_status, ok_bind]

/-- C7 (amended): `summarize` returns
`percentChange = (forecastValue - currentValue) / currentValue * 100`, with
`currentValue` the last analysis value and `forecastValue` the last forecast
value; but it raises no `DivisionByZeroError` — the formula is evaluated for
EVERY last pair, including `currentValue = 0` (where the float result is
non-finite yet no exception occurs); the stage fails only with `IndexError`
on an empty series. -/
theorem summarize_percent_change (prices fy : List ℚ) (cur fp : ℚ)
    (h1 : lastE prices = Except.ok cur) (h2 : lastE fy = Except.ok fp) :
    summarizeE prices fy =
      Except.ok ⟨cur, fp, (fp - cur) / cur * 100,
        trend_status ((fp - cur) / cur * 100)⟩ := by
  unfold summarizeE
  rw [h1, ok_bind, h2, ok_bind]
  rfl

/-- C7 witness: prices `[2, 4]`, forecast `[5]`. -/
theorem summarize_percent_change_witness :
    summarizeE [(2:ℚ), 4] [(5:ℚ)] =
      Except.ok ⟨4, 5, ((5:ℚ) - 4) / 4 * 100,
        trend_status (((5:ℚ) - 4) / 4 * 100)⟩ :=
  summarize_percent_change [(2:ℚ), 4] [(5:ℚ)] 4 5
    (by norm_num [lastE]) (by norm_num [lastE])

/-- C9 counterexample: a sorted raw series whose valid dates are day 0 and
day 2 normalizes to the time axis `[0, 2]`, which is NOT gap-free — the
script never fills calendar gaps, so consecutive points can be more than one
whole day apart. -/
theorem gap_in_time_axis_cex :
    tcol ((dropna [((0:Int), some (1:ℚ)), (2, some 1)]).map Prod.fst) = [0, 2] ∧
    ¬ specGapFree
      (tcol ((dropna [((0:Int), some (1:ℚ)), (2, some 1)]).map Prod.fst)) := by
  have h : tcol ((dropna [((0:Int), some (1:ℚ)), (2, some 1)]).map Prod.fst)
      = [0, 2] := by decide
  refine ⟨h, ?_⟩
  rw [h]
  norm_num [specGapFree, List.chain'_cons]

/-- C9 (amended): the time axis is whole days since the earliest valid date;
when the valid dates arrive sorted (as the data source delivers them) it is
monotonically non-decreasing and starts at 0 — but it is NOT generally
gap-free: consecutive entries differ by the actual calendar gap. -/
theorem time_axis_monotone (raw : List (Int × Option ℚ))
    (hs : List.Chain' (· ≤ ·) ((dropna raw).map Prod.fst)) :
    List.Chain' (· ≤ ·) (tcol ((dropna raw).map Prod.fst)) ∧
    ((dropna raw).map Prod.fst ≠ [] →
      (tcol ((dropna raw).map Prod.fst)).head? = some 0) :=
  ⟨tcol_sorted_chain _ hs, fun hne => tcol_sorted_head _ hs hne⟩

/-- C9 witness: sorted valid dates `[5, 6, 8]`. -/
theorem time_axis_monotone_witness :
    List.Chain' (· ≤ ·)
      (tcol ((dropna [((5:Int), some (1:ℚ)), (6, some 2), (8, some 3)]).map
        Prod.fst)) ∧
    ((dropna [((5:Int), some (1:ℚ)), (6, some 2), (8, some 3)]).map
        Prod.fst ≠ [] →
      (tcol ((dropna [((5:Int), some (1:ℚ)), (6, some 2), (8, some 3)]).map
        Prod.fst)).head? = some 0) :=
  time_axis_monotone [((5:Int), some (1:ℚ)), (6, some 2), (8, some 3)]
    (by
      have h : (dropna [((5:Int), some (1:ℚ)), (6, some 2), (8, some 3)]).map
          Prod.fst = [5, 6, 8] := by decide
      rw [h]
      norm_num [List.chain'_cons])

/-- C10: every value the slider of lines 35-38 can deliver lies between 7
and 180 (the default 30 included), hence is positive, and with nonempty
valid data the whole pipeline succeeds — the non-positive-horizon failure
paths of the forecaster are unreachable from the application interface. -/
theorem slider_horizon_safe (v : Int)
    (h1 : pred_days_lo ≤ v) (_h2 : v ≤ pred_days_hi) :
    1 ≤ v ∧
    (pred_days_lo ≤ pred_days_default ∧ pred_days_default ≤ pred_days_hi) ∧
    ∀ kurs raw, dropna raw ≠ [] → isOk (runScript kurs raw v) = true := by
  have hv : 1 ≤ v := by
    unfold pred_days_lo at h1
    omega
  exact ⟨hv, ⟨by decide, by decide⟩,
    fun kurs raw hne => runScript_isOk kurs raw v hne hv⟩

/-- C10 witness: the slider default 30 with one valid data point. -/
theorem slider_horizon_safe_witness :
    (1:Int) ≤ 30 ∧ isOk (runScript 1 [((0:Int), some (1:ℚ))] 30) = true :=
  ⟨(slider_horizon_safe 30 (by decide) (by decide)).1,
    (slider_horizon_safe 30 (by decide) (by decide)).2.2 1
      [((0:Int), some (1:ℚ))] (by decide)⟩

end GoldForecast
